import Mathlib

/-!
# Verification of the pew_local offline sync / backup / encryption core

A shallow embedding of the queue/backup subsystem of the pew_local
expense-tracking PWA: the Dexie-backed `ExpenseDatabase` (expenses,
categories, media files, settings, sync queue), the `SyncManager` drain
loop, and the `BackupManager` snapshot / AES-GCM envelope codec.

Bytes are `Nat` values below 256, dates are `Nat` timestamps, and the
platform crypto / JSON primitives (Web Crypto `subtle`, `JSON.parse`
/ `JSON.stringify`, `TextEncoder`) are parameters of the model packaged
in `CryptoPrims`, with their contracts stated as hypotheses where a
theorem needs them.  Everything written by the repository itself
(base64 via `btoa` character streams, the salt‖ciphertext layout, the
catch-clause error rebranding, the Dexie hooks, the queue bookkeeping)
is modelled concretely from the source.
-/

namespace Pew

/-! ## JavaScript-style helpers -/

/-- JS `x || y` on a possibly-`undefined` number: `undefined` and `0` are
falsy.  Models `(await this.syncQueue.get(id))?.retryCount || e`. -/
def jsOrNat : Option Nat → Nat → Nat
  | none, d => d
  | some n, d => if n = 0 then d else n

/-- JS string truthiness: a string is truthy iff it is non-empty. -/
def jsTruthy (s : String) : Bool := s ≠ ""

/-- `pat` is a leading segment of the second list (characters). -/
def listStartsWith : List Char → List Char → Bool
  | [], _ => true
  | _ :: _, [] => false
  | a :: as, b :: bs => a = b && listStartsWith as bs

/-- `pat` occurs contiguously inside the second list (characters). -/
def listHasSub (pat : List Char) : List Char → Bool
  | [] => listStartsWith pat []
  | c :: rest => listStartsWith pat (c :: rest) || listHasSub pat rest

/-- JS `s.includes(pat)`. -/
def strIncludes (s pat : String) : Bool := listHasSub pat.data s.data

/-! ## Base64 (`arrayBufferToBase64` / `base64ToArrayBuffer` over
`btoa` / `atob`)

The source turns a byte array into a binary string and feeds it to the
platform's `btoa`; decoding goes through `atob`.  The net effect on the
byte list is standard base64 with `=` padding, modelled concretely. -/

/-- The base64 alphabet as `btoa` emits it. -/
def b64Alphabet : List Char :=
  "ABCDEFGHIJKLMNOPQRSTUVWXYZabcdefghijklmnopqrstuvwxyz0123456789+/".data

/-- The alphabet character of a sextet (`n < 64`). -/
def sextetChar (n : Nat) : Char := b64Alphabet.getD n '='

/-- The sextet of an alphabet character; `none` off the alphabet. -/
def charSextet (c : Char) : Option Nat := b64Alphabet.findIdx? (· = c)

/-- base64-encode a byte list, chunking three bytes into four
characters with `=` padding on a short final chunk. -/
def b64EncodeBytes : List Nat → List Char
  | [] => []
  | [b0] => [sextetChar (b0 / 4), sextetChar (b0 % 4 * 16), '=', '=']
  | [b0, b1] =>
      [sextetChar (b0 / 4), sextetChar (b0 % 4 * 16 + b1 / 16),
       sextetChar (b1 % 16 * 4), '=']
  | b0 :: b1 :: b2 :: rest =>
      sextetChar (b0 / 4) :: sextetChar (b0 % 4 * 16 + b1 / 16) ::
      sextetChar (b1 % 16 * 4 + b2 / 64) :: sextetChar (b2 % 64) ::
      b64EncodeBytes rest

/-- Decode a final four-character group, which may carry `=` padding. -/
def b64DecodeQuad (c0 c1 c2 c3 : Char) : Option (List Nat) :=
  if c2 = '=' ∧ c3 = '=' then do
    let s0 ← charSextet c0
    let s1 ← charSextet c1
    if s1 % 16 = 0 then some [s0 * 4 + s1 / 16] else none
  else if c3 = '=' then do
    let s0 ← charSextet c0
    let s1 ← charSextet c1
    let s2 ← charSextet c2
    if s2 % 4 = 0 then some [s0 * 4 + s1 / 16, s1 % 16 * 16 + s2 / 4]
    else none
  else do
    let s0 ← charSextet c0
    let s1 ← charSextet c1
    let s2 ← charSextet c2
    let s3 ← charSextet c3
    some [s0 * 4 + s1 / 16, s1 % 16 * 16 + s2 / 4, s2 % 4 * 64 + s3]

/-- base64-decode a character list; `none` on malformed input, as
`atob` throws there (padding is legal only in the final group). -/
def b64DecodeBytes : List Char → Option (List Nat)
  | [] => some []
  | [c0, c1, c2, c3] => b64DecodeQuad c0 c1 c2 c3
  | c0 :: c1 :: c2 :: c3 :: c4 :: rest => do
      let s0 ← charSextet c0
      let s1 ← charSextet c1
      let s2 ← charSextet c2
      let s3 ← charSextet c3
      let r ← b64DecodeBytes (c4 :: rest)
      some ((s0 * 4 + s1 / 16) :: (s1 % 16 * 16 + s2 / 4) ::
            (s2 % 4 * 64 + s3) :: r)
  | _ => none

/-- `arrayBufferToBase64`: bytes to a base64 string. -/
def arrayBufferToBase64 (bytes : List Nat) : String :=
  String.mk (b64EncodeBytes bytes)

/-- `base64ToArrayBuffer`: base64 string to bytes; `none` where `atob`
would throw. -/
def base64ToArrayBuffer (s : String) : Option (List Nat) :=
  b64DecodeBytes s.data

/-- Every byte of the list is below 256. -/
def IsBytes (l : List Nat) : Prop := ∀ b ∈ l, b < 256

instance (l : List Nat) : Decidable (IsBytes l) :=
  inferInstanceAs (Decidable (∀ b ∈ l, b < 256))

instance {ε α : Type} [DecidableEq ε] [DecidableEq α] :
    DecidableEq (Except ε α) := fun x y =>
  match x, y with
  | .error e, .error f =>
      if h : e = f then .isTrue (by rw [h])
      else .isFalse (fun c => h (Except.error.inj c))
  | .error _, .ok _ => .isFalse (fun c => Except.noConfusion c)
  | .ok _, .error _ => .isFalse (fun c => Except.noConfusion c)
  | .ok a, .ok b =>
      if h : a = b then .isTrue (by rw [h])
      else .isFalse (fun c => h (Except.ok.inj c))

lemma charSextet_sextetChar : ∀ n < 64, charSextet (sextetChar n) = some n := by
  decide

lemma sextetChar_ne_pad {n : Nat} (h : n < 64) : sextetChar n ≠ '=' := by
  intro he
  have h1 := charSextet_sextetChar n h
  have h2 : charSextet '=' = none := by decide
  rw [he, h2] at h1
  exact Option.noConfusion h1

lemma b64EncodeBytes_ne_nil {l : List Nat} (h : l ≠ []) :
    b64EncodeBytes l ≠ [] := by
  match l with
  | [] => exact absurd rfl h
  | [b0] => simp [b64EncodeBytes]
  | [b0, b1] => simp [b64EncodeBytes]
  | b0 :: b1 :: b2 :: rest => simp [b64EncodeBytes]

lemma b64_decode_encode {l : List Nat} (h : IsBytes l) :
    b64DecodeBytes (b64EncodeBytes l) = some l := by
  induction l using b64EncodeBytes.induct with
  | case1 => rfl
  | case2 b0 =>
      have h0 : b0 < 256 := h b0 (by simp)
      have e0 := charSextet_sextetChar (b0 / 4) (by omega)
      have e1 := charSextet_sextetChar (b0 % 4 * 16) (by omega)
      have g1 : b0 % 4 * 16 % 16 = 0 := by omega
      simp [b64EncodeBytes, b64DecodeBytes, b64DecodeQuad, e0, e1, g1]
      omega
  | case3 b0 b1 =>
      have h0 : b0 < 256 := h b0 (by simp)
      have h1 : b1 < 256 := h b1 (by simp)
      have e0 := charSextet_sextetChar (b0 / 4) (by omega)
      have e1 := charSextet_sextetChar (b0 % 4 * 16 + b1 / 16) (by omega)
      have e2 := charSextet_sextetChar (b1 % 16 * 4) (by omega)
      have n2 : sextetChar (b1 % 16 * 4) ≠ '=' := sextetChar_ne_pad (by omega)
      have g2 : b1 % 16 * 4 % 4 = 0 := by omega
      simp [b64EncodeBytes, b64DecodeBytes, b64DecodeQuad, e0, e1, e2, n2, g2]
      omega
  | case4 b0 b1 b2 rest ih =>
      have h0 : b0 < 256 := h b0 (by simp)
      have h1 : b1 < 256 := h b1 (by simp)
      have h2 : b2 < 256 := h b2 (by simp)
      have hrest : IsBytes rest := fun b hb => h b (by simp [hb])
      have e0 := charSextet_sextetChar (b0 / 4) (by omega)
      have e1 := charSextet_sextetChar (b0 % 4 * 16 + b1 / 16) (by omega)
      have e2 := charSextet_sextetChar (b1 % 16 * 4 + b2 / 64) (by omega)
      have e3 := charSextet_sextetChar (b2 % 64) (by omega)
      rcases Decidable.em (rest = []) with hre | hre
      · subst hre
        have n2 : sextetChar (b1 % 16 * 4 + b2 / 64) ≠ '=' :=
          sextetChar_ne_pad (by omega)
        have n3 : sextetChar (b2 % 64) ≠ '=' := sextetChar_ne_pad (by omega)
        simp [b64EncodeBytes, b64DecodeBytes, b64DecodeQuad, e0, e1, e2, e3,
          n2, n3]
        omega
      · obtain ⟨x, xs, hx⟩ := List.exists_cons_of_ne_nil (b64EncodeBytes_ne_nil hre)
        have ihr := ih hrest
        rw [hx] at ihr
        simp only [b64EncodeBytes, hx, b64DecodeBytes, e0, e1, e2, e3, ihr,
          Option.bind_eq_bind, Option.some_bind]
        simp only [Option.some.injEq, List.cons.injEq]
        refine ⟨by omega, by omega, by omega, trivial⟩

/-- Round trip of the repository's base64 helpers. -/
theorem base64_roundtrip {l : List Nat} (h : IsBytes l) :
    base64ToArrayBuffer (arrayBufferToBase64 l) = some l := by
  unfold base64ToArrayBuffer arrayBufferToBase64
  exact b64_decode_encode h

/-! ## Data model (`database.ts`)

Dates are `Nat` timestamps.  `any`-typed payload fields that no core
logic inspects (`notes`, `tags`, `location`, setting values) are either
omitted or carried as `String`. -/

/-- `syncStatus ∈ {synced, pending, failed}`. -/
inductive SyncStatus where
  | synced | pending | failed
  deriving DecidableEq, Repr

/-- The `receipt` sub-object of an `Expense`. -/
structure Receipt where
  mediaId : String
  fileName : String
  mimeType : String
  size : Nat
  deriving DecidableEq, Repr

/-- An `Expense` row (without its auto-assigned id). -/
structure ExpenseData where
  amount : Int
  description : String
  category : String
  paymentMethod : String
  date : Nat
  receipt : Option Receipt
  createdAt : Nat
  updatedAt : Nat
  syncStatus : SyncStatus
  cloudId : Option String
  deriving DecidableEq, Repr

/-- A `Category` row (without its auto-assigned id). -/
structure CategoryData where
  name : String
  color : String
  icon : String
  budget : Option Int
  isDefault : Bool
  createdAt : Nat
  updatedAt : Nat
  deriving DecidableEq, Repr

/-- A `MediaFile` row (without its auto-assigned id). -/
structure MediaData where
  mediaId : String
  fileName : String
  mimeType : String
  size : Nat
  thumbnailId : Option String
  createdAt : Nat
  expenseId : Option Nat
  deriving DecidableEq, Repr

/-- An `AppSettings` row (without its auto-assigned id); `value : any`
is carried as a string. -/
structure SettingData where
  key : String
  value : String
  updatedAt : Nat
  deriving DecidableEq, Repr

/-- `operation ∈ {create, update, delete}`. -/
inductive SyncOp where
  | create | update | del
  deriving DecidableEq, Repr

/-- `entityType ∈ {expense, category, media}`. -/
inductive EntityType where
  | expense | category | media
  deriving DecidableEq, Repr

/-- A `SyncQueue` row (without its auto-assigned id); the optional
`data` payload is not inspected by any core logic and is omitted. -/
structure SyncEntryData where
  operation : SyncOp
  entityType : EntityType
  entityId : Nat
  timestamp : Nat
  retryCount : Nat
  lastError : Option String
  deriving DecidableEq, Repr

/-! ## A Dexie/IndexedDB table

Rows are kept in insertion order with their integer primary keys; the
auto-increment counter survives `clear()` (IndexedDB semantics) and is
bumped past any explicitly supplied key.  Adding a row under a key
that is already present rejects with a `ConstraintError` in IndexedDB;
Dexie's `bulkAdd` attempts every row, keeps the ones that succeeded,
and rejects with a `BulkError` when any row failed. -/

structure Table (α : Type) where
  rows : List (Nat × α)
  nextId : Nat
  deriving DecidableEq, Repr

namespace Table

/-- The primary keys, in insertion order. -/
def keys (t : Table α) : List Nat := t.rows.map Prod.fst

/-- `get(id)`. -/
def get (t : Table α) (id : Nat) : Option α :=
  (t.rows.find? (fun r => r.1 = id)).map Prod.snd

/-- `add(obj)` with an auto-assigned key; returns the key. -/
def addAuto (t : Table α) (x : α) : Table α × Nat :=
  (⟨t.rows ++ [(t.nextId, x)], t.nextId + 1⟩, t.nextId)

/-- `add(obj)` where `obj` carries its own key: inserted under that key
when it is free, rejected with IndexedDB's `ConstraintError` when it
is taken. -/
def addWithId (t : Table α) (id : Nat) (x : α) : Except String (Table α) :=
  if id ∈ t.keys then .error "ConstraintError"
  else .ok ⟨t.rows ++ [(id, x)], max t.nextId (id + 1)⟩

/-- `update(id, changes)`: applies `f` to the row under `id`, if any. -/
def update (t : Table α) (id : Nat) (f : α → α) : Table α :=
  ⟨t.rows.map (fun r => if r.1 = id then (r.1, f r.2) else r), t.nextId⟩

/-- `delete(id)`. -/
def deleteKey (t : Table α) (id : Nat) : Table α :=
  ⟨t.rows.filter (fun r => r.1 ≠ id), t.nextId⟩

/-- `clear()`: rows vanish, the key generator does not reset. -/
def clear (t : Table α) : Table α := ⟨[], t.nextId⟩

/-- `count()`. -/
def count (t : Table α) : Nat := t.rows.length

/-- `bulkAdd` of payloads without keys (auto-assigned). -/
def bulkAddAuto (t : Table α) (xs : List α) : Table α :=
  xs.foldl (fun acc x => (acc.addAuto x).1) t

/-- The `bulkAdd` loop over keyed records: each row is attempted in
order, a row whose key is taken fails and is counted while the rest
proceed. -/
def bulkAddWithIdsAux (t : Table α) (failed : Nat) :
    List (Nat × α) → Table α × Nat
  | [] => (t, failed)
  | x :: xs =>
      match t.addWithId x.1 x.2 with
      | .ok t1 => bulkAddWithIdsAux t1 failed xs
      | .error _ => bulkAddWithIdsAux t (failed + 1) xs

/-- `bulkAdd` of records that carry their keys: the resulting table
(successfully added rows stay) together with the number of rows that
failed — a non-zero count makes the Dexie call reject with a
`BulkError`. -/
def bulkAddWithIds (t : Table α) (xs : List (Nat × α)) : Table α × Nat :=
  bulkAddWithIdsAux t 0 xs

/-- `where(field).equals(v).modify(changes)`: applies `f` to every row
satisfying `p`. -/
def modifyWhere (t : Table α) (p : α → Bool) (f : α → α) : Table α :=
  ⟨t.rows.map (fun r => if p r.2 then (r.1, f r.2) else r), t.nextId⟩

/-- `where(field).equals(v).delete()`: removes every row satisfying `p`. -/
def deleteWhere (t : Table α) (p : α → Bool) : Table α :=
  ⟨t.rows.filter (fun r => ¬ p r.2), t.nextId⟩

/-- A healthy table: keys are distinct and below the counter. -/
def WF (t : Table α) : Prop :=
  t.keys.Nodup ∧ ∀ id ∈ t.keys, id < t.nextId

end Table

/-- The `ExpenseDatabase` store. -/
structure DB where
  expenses : Table ExpenseData
  categories : Table CategoryData
  mediaFiles : Table MediaData
  syncQueue : Table SyncEntryData
  settings : Table SettingData
  deriving DecidableEq, Repr

/-! ## Dexie hooks (`creating` / `updating`)

The `creating` hook on `expenses` stamps `createdAt`, `updatedAt` and
forces `syncStatus := pending`; the one on `categories` stamps the two
dates.  The `updating` hooks refresh `updatedAt` and, for expenses,
force `syncStatus := pending` unless the modification set it. -/

def expenseCreatingHook (now : Nat) (e : ExpenseData) : ExpenseData :=
  { e with createdAt := now, updatedAt := now, syncStatus := .pending }

def categoryCreatingHook (now : Nat) (c : CategoryData) : CategoryData :=
  { c with createdAt := now, updatedAt := now }

def expenseUpdatingHook (now : Nat) (modSetsSyncStatus : Bool)
    (e : ExpenseData) : ExpenseData :=
  { e with updatedAt := now,
           syncStatus := if modSetsSyncStatus then e.syncStatus else .pending }

def categoryUpdatingHook (now : Nat) (c : CategoryData) : CategoryData :=
  { c with updatedAt := now }

/-! ## Default data (`initializeDefaultData`) -/

/-- The seven default categories. -/
def defaultCategories (now : Nat) : List CategoryData :=
  [⟨"Food & Dining", "#ef4444", "🍽️", none, true, now, now⟩,
   ⟨"Transportation", "#3b82f6", "🚗", none, true, now, now⟩,
   ⟨"Shopping", "#8b5cf6", "🛍️", none, true, now, now⟩,
   ⟨"Entertainment", "#f59e0b", "🎬", none, true, now, now⟩,
   ⟨"Healthcare", "#10b981", "🏥", none, true, now, now⟩,
   ⟨"Bills & Utilities", "#6b7280", "📄", none, true, now, now⟩,
   ⟨"Other", "#64748b", "📦", none, true, now, now⟩]

/-- The five default settings. -/
def defaultSettings (now : Nat) : List SettingData :=
  [⟨"currency", "USD", now⟩,
   ⟨"dateFormat", "MM/dd/yyyy", now⟩,
   ⟨"theme", "system", now⟩,
   ⟨"autoBackup", "true", now⟩,
   ⟨"notificationsEnabled", "true", now⟩]

/-- `initializeDefaultData`: seeds the default categories when the
categories table is empty, and the default settings when the settings
table is empty. -/
def initializeDefaultData (now : Nat) (db : DB) : DB :=
  let db1 :=
    if db.categories.count = 0 then
      { db with categories := db.categories.bulkAddAuto (defaultCategories now) }
    else db
  if db1.settings.count = 0 then
    { db1 with settings := db1.settings.bulkAddAuto (defaultSettings now) }
  else db1

/-! ## `ExpenseDatabase` methods -/

/-- `addToSyncQueue(operation, entityType, entityId)`: appends a fresh
entry with `retryCount = 0`. -/
def addToSyncQueue (now : Nat) (db : DB) (op : SyncOp) (ty : EntityType)
    (entityId : Nat) : DB :=
  { db with
    syncQueue := (db.syncQueue.addAuto ⟨op, ty, entityId, now, 0, none⟩).1 }

/-- `addExpense`: insert (creating hook stamps bookkeeping) and enqueue
a `create`/`expense` sync entry. -/
def addExpense (now : Nat) (db : DB) (x : ExpenseData) : DB × Nat :=
  let (t, id) := db.expenses.addAuto (expenseCreatingHook now x)
  (addToSyncQueue now { db with expenses := t } .create .expense id, id)

/-- `updateExpense`: apply the partial update `u` (updating hook
refreshes `updatedAt` / `syncStatus`) and enqueue an `update` entry. -/
def updateExpense (now : Nat) (db : DB) (id : Nat) (u : ExpenseData → ExpenseData)
    (modSetsSyncStatus : Bool) : DB :=
  let db1 :=
    { db with
      expenses :=
        db.expenses.update id
          (fun e => expenseUpdatingHook now modSetsSyncStatus (u e)) }
  addToSyncQueue now db1 .update .expense id

/-- `deleteMediaFile(mediaId)`: removes every media row with that
`mediaId`; no sync entry is enqueued. -/
def deleteMediaFile (db : DB) (mediaId : String) : DB :=
  { db with
    mediaFiles := db.mediaFiles.deleteWhere (fun m => m.mediaId = mediaId) }

/-- `deleteExpense`: when the expense's `receipt?.mediaId` is truthy
(JS: a non-empty string) the matching media rows are removed, then the
expense row is deleted and a `delete` entry enqueued. -/
def deleteExpense (now : Nat) (db : DB) (id : Nat) : DB :=
  let db1 :=
    match db.expenses.get id with
    | some e =>
        match e.receipt with
        | some r => if jsTruthy r.mediaId then deleteMediaFile db r.mediaId else db
        | none => db
    | none => db
  let db2 := { db1 with expenses := db1.expenses.deleteKey id }
  addToSyncQueue now db2 .del .expense id

/-- `addCategory`: insert only; no sync entry is enqueued. -/
def addCategory (now : Nat) (db : DB) (c : CategoryData) : DB × Nat :=
  let (t, id) := db.categories.addAuto (categoryCreatingHook now c)
  ({ db with categories := t }, id)

/-- `updateCategory`: update only; no sync entry is enqueued. -/
def updateCategory (now : Nat) (db : DB) (id : Nat)
    (u : CategoryData → CategoryData) : DB :=
  { db with
    categories := db.categories.update id (fun c => categoryUpdatingHook now (u c)) }

/-- `deleteCategory`: throws on a default category; otherwise, when a
category named `Other` exists, reassigns expenses with the deleted
category's name (JS `category?.name || ''`) to `Other` (the updating
hook stamps them), then deletes the category row. -/
def deleteCategory (now : Nat) (db : DB) (id : Nat) : Except String DB :=
  let category := db.categories.get id
  if (category.map (·.isDefault)).getD false then
    .error "Cannot delete default category"
  else
    let name := (category.map (·.name)).getD ""
    let db1 :=
      match db.categories.rows.find? (fun r => r.2.name = "Other") with
      | some _ =>
          { db with
            expenses :=
              db.expenses.modifyWhere (fun e => e.category = name)
                (fun e =>
                  expenseUpdatingHook now false { e with category := "Other" }) }
      | none => db
    .ok { db1 with categories := db1.categories.deleteKey id }

/-- `addMediaFile`: insert with `createdAt` stamped; no sync entry. -/
def addMediaFile (now : Nat) (db : DB) (m : MediaData) : DB × Nat :=
  let (t, id) := db.mediaFiles.addAuto { m with createdAt := now }
  ({ db with mediaFiles := t }, id)

/-! ## Sync queue bookkeeping and the drain pass (`sync.ts`) -/

/-- `maxRetries` of the `SyncManager`. -/
def maxRetries : Nat := 3

/-- `retryDelay` (ms) of the `SyncManager`. -/
def retryDelay : Nat := 5000

/-- `getPendingSyncItems`: the queue ordered by `timestamp` ascending
(stable, so equal timestamps stay in primary-key order, as Dexie's
`orderBy` yields them). -/
def getPendingSyncItems (q : Table SyncEntryData) : List (Nat × SyncEntryData) :=
  q.rows.insertionSort (fun a b => a.2.timestamp ≤ b.2.timestamp)

/-- `markSyncItemCompleted(id)`: the entry leaves the queue. -/
def markSyncItemCompleted (q : Table SyncEntryData) (id : Nat) :
    Table SyncEntryData :=
  q.deleteKey id

/-- `markSyncItemFailed(id, error)`: re-reads the stored entry and
writes `retryCount: (await get(id))?.retryCount || 0 + 1` — the
source's own operator precedence, `stored || (0 + 1)` — plus
`lastError`. -/
def markSyncItemFailed (q : Table SyncEntryData) (id : Nat) (err : String) :
    Table SyncEntryData :=
  let stored := (q.get id).map (·.retryCount)
  q.update id
    (fun e => { e with retryCount := jsOrNat stored (0 + 1), lastError := some err })

/-- What one `processQueue` pass produced. -/
structure PassResult where
  queue : Table SyncEntryData
  errors : List (SyncEntryData × String)
  attempted : List Nat
  processedCount : Nat
  deriving DecidableEq, Repr

/-- One `processQueue` pass: the pending items are snapshotted in
timestamp order, each is delivered via `remote` (the placeholder
`processSyncItem`); success removes the entry, failure below
`maxRetries` goes through `markSyncItemFailed`, failure at or above it
removes the entry and reports it in the error list. -/
def processQueuePass (remote : SyncEntryData → Except String Unit)
    (q : Table SyncEntryData) : PassResult :=
  (getPendingSyncItems q).foldl
    (fun acc item =>
      match remote item.2 with
      | .ok _ =>
          { acc with
            queue := markSyncItemCompleted acc.queue item.1
            processedCount := acc.processedCount + 1
            attempted := acc.attempted ++ [item.1] }
      | .error msg =>
          if item.2.retryCount < maxRetries then
            { acc with
              queue := markSyncItemFailed acc.queue item.1 msg
              attempted := acc.attempted ++ [item.1] }
          else
            { acc with
              queue := markSyncItemCompleted acc.queue item.1
              errors := acc.errors ++ [(item.2, msg)]
              attempted := acc.attempted ++ [item.1] })
    ⟨q, [], [], 0⟩

/-- Iterated drain passes (each later pass starts from the queue the
previous one left). -/
def iteratePasses (remote : SyncEntryData → Except String Unit)
    (q : Table SyncEntryData) : Nat → Table SyncEntryData
  | 0 => q
  | n + 1 => iteratePasses remote (processQueuePass remote q).queue n

/-! ## Backup snapshots (`backup.ts`)

`preferences` and `appState` are opaque to the backup logic and are
carried as strings. -/

/-- `BackupData.metadata`. -/
structure BackupMeta where
  totalExpenses : Nat
  totalCategories : Nat
  dateRangeStart : Option Nat
  dateRangeEnd : Option Nat
  fileCount : Nat
  mediaSize : Nat
  deriving DecidableEq, Repr

/-- `BackupData.data`. -/
structure BackupPayload where
  expenses : List (Nat × ExpenseData)
  categories : List (Nat × CategoryData)
  settings : List (Nat × SettingData)
  preferences : String
  appState : String
  deriving DecidableEq, Repr

/-- A `BackupData` snapshot. -/
structure BackupData where
  version : String
  createdAt : Nat
  appVersion : String
  data : BackupPayload
  metadata : BackupMeta
  deriving DecidableEq, Repr

/-- `BACKUP_VERSION`. -/
def BACKUP_VERSION : String := "1.0"

/-- `createBackup`: a pure read of every table plus computed metadata
(`dateRange` over the expense dates, `mediaSize` as the summed media
sizes). -/
def createBackup (now : Nat) (db : DB) (prefs appState : String) : BackupData :=
  { version := BACKUP_VERSION
    createdAt := now
    appVersion := "1.0.0"
    data :=
      { expenses := db.expenses.rows
        categories := db.categories.rows
        settings := db.settings.rows
        preferences := prefs
        appState := appState }
    metadata :=
      { totalExpenses := db.expenses.rows.length
        totalCategories := db.categories.rows.length
        dateRangeStart := (db.expenses.rows.map (fun r => r.2.date)).min?
        dateRangeEnd := (db.expenses.rows.map (fun r => r.2.date)).max?
        fileCount := db.mediaFiles.rows.length
        mediaSize := (db.mediaFiles.rows.map (fun r => r.2.size)).sum } }

/-- `clearAllData`: clears expenses, categories, media files and the
sync queue — the settings table is NOT in the transaction — then
re-runs `initializeDefaultData`. -/
def clearAllData (now : Nat) (db : DB) : DB :=
  initializeDefaultData now
    { db with
      expenses := db.expenses.clear
      categories := db.categories.clear
      mediaFiles := db.mediaFiles.clear
      syncQueue := db.syncQueue.clear }

/-- Dexie rejects a `bulkAdd` that had failing rows with a
`BulkError`; its message is library-defined and carried in the model
as this token. -/
def dexieBulkErrorMsg : String := "BulkError"

/-- `restoreBackup`: destructive — `clearAllData` first (which already
re-seeds the defaults), then `await`ed `bulkAdd` of each non-empty
snapshot table in order (expenses, categories, settings), the inserted
expenses and categories passing through the `creating` hooks.  A
`bulkAdd` with a failed row rejects with a `BulkError`, the later
bulk-inserts do not run, and the surrounding catch rethrows
`Failed to restore backup: ...`; rows inserted before the failure stay
(there is no rollback), so the result is the store that is left behind
together with the error the caller sees (`none` on success).
Preference/app-state restoration is outside the store and not
modelled. -/
def restoreBackup (now : Nat) (backup : BackupData) (db : DB) :
    DB × Option String :=
  let db1 := clearAllData now db
  let (tE, failE) :=
    if backup.data.expenses.length > 0 then
      db1.expenses.bulkAddWithIds
        (backup.data.expenses.map (fun r => (r.1, expenseCreatingHook now r.2)))
    else (db1.expenses, 0)
  let db2 := { db1 with expenses := tE }
  if failE ≠ 0 then
    (db2, some ("Failed to restore backup: " ++ dexieBulkErrorMsg))
  else
    let (tC, failC) :=
      if backup.data.categories.length > 0 then
        db2.categories.bulkAddWithIds
          (backup.data.categories.map
            (fun r => (r.1, categoryCreatingHook now r.2)))
      else (db2.categories, 0)
    let db3 := { db2 with categories := tC }
    if failC ≠ 0 then
      (db3, some ("Failed to restore backup: " ++ dexieBulkErrorMsg))
    else
      let (tS, failS) :=
        if backup.data.settings.length > 0 then
          db3.settings.bulkAddWithIds backup.data.settings
        else (db3.settings, 0)
      let db4 := { db3 with settings := tS }
      if failS ≠ 0 then
        (db4, some ("Failed to restore backup: " ++ dexieBulkErrorMsg))
      else (db4, none)

/-! ## The idb-keyval side store and auto-backup retention -/

/-- The key-value side store (`idb-keyval`): string keys, values of
type `V`. -/
structure KVStore (V : Type) where
  entries : List (String × V)
  deriving DecidableEq, Repr

namespace KVStore

/-- The keys, in store order. -/
def keys (kv : KVStore V) : List String := kv.entries.map Prod.fst

/-- `del(key)`. -/
def del (kv : KVStore V) (k : String) : KVStore V :=
  ⟨kv.entries.filter (fun e => e.1 ≠ k)⟩

/-- `set(key, value)`: overwrite in place or append. -/
def set (kv : KVStore V) (k : String) (v : V) : KVStore V :=
  if k ∈ kv.keys then
    ⟨kv.entries.map (fun e => if e.1 = k then (k, v) else e)⟩
  else ⟨kv.entries ++ [(k, v)]⟩

end KVStore

/-- The `auto-backup-` key prefix test of `storeLocalBackup` /
`getLocalBackups` (JS `key.startsWith('auto-backup-')`). -/
def isBackupKey (k : String) : Bool :=
  listStartsWith "auto-backup-".data k.data

/-- JS string comparison as `Array.prototype.sort()` performs it:
lexicographic over the code-unit sequences. -/
def charListLe : List Char → List Char → Bool
  | [], _ => true
  | _ :: _, [] => false
  | a :: as, b :: bs => if a = b then charListLe as bs else decide (a < b)

/-- `a <= b` in JS string order. -/
def strLeJS (a b : String) : Bool := charListLe a.data b.data

/-- The key order `backupKeys.sort()` uses. -/
def keyOrder (a b : String) : Prop := strLeJS a b = true

instance : DecidableRel keyOrder := fun a b => instDecidableEqBool (strLeJS a b) true

/-- `storeLocalBackup`: when at least 5 `auto-backup-` keys exist, the
keys are sorted and all but the newest 4 deleted, then the new backup
is stored under `backupKey`. -/
def storeLocalBackup (kv : KVStore V) (backupKey : String) (v : V) : KVStore V :=
  let backupKeys := kv.keys.filter isBackupKey
  if 5 ≤ backupKeys.length then
    let sorted := backupKeys.insertionSort keyOrder
    let kv1 := (sorted.take (sorted.length - 4)).foldl KVStore.del kv
    kv1.set backupKey v
  else kv.set backupKey v

/-! ## The encryption codec (`encryptBackup` / `decryptBackup`)

The platform primitives — PBKDF2-HMAC-SHA256 key derivation, AES-GCM
encrypt/decrypt, `TextEncoder`/`TextDecoder`, `JSON.stringify`/
`JSON.parse` with the subsequent `Date` re-hydration — are parameters
of the model; the envelope layout, the base64 codec, the salt
convention and the catch-clause error normalisation are concrete. -/

/-- An `EncryptedBackup` envelope.  `createdAtISO` stands for the ISO
rendering of the backup's creation date. -/
structure EncryptedBackup where
  version : String
  algorithm : String
  iv : String
  data : String
  createdAtISO : String
  deriving DecidableEq, Repr

/-- The platform primitives the codec calls into, with the
platform-defined failure messages the catch clauses inspect. -/
structure CryptoPrims (Key : Type) where
  deriveKey : String → List Nat → Key
  aesEncrypt : Key → List Nat → List Nat → List Nat
  aesDecrypt : Key → List Nat → List Nat → Option (List Nat)
  encodeText : String → List Nat
  decodeText : List Nat → String
  jsonStringify : BackupData → String
  jsonParse : String → Option BackupData
  reviveDates : BackupData → BackupData
  opErrorMsg : String
  parseErrorMsg : String

/-- `ALGORITHM`. -/
def ALGORITHM : String := "AES-GCM"

/-- `encryptBackup(backup, password)` with the randomness (16-byte
salt, 12-byte IV) passed in explicitly: derive the key from password
and salt, AES-GCM-encrypt the JSON text, and emit the envelope with
`data = base64(salt ‖ ciphertext)`. -/
def encryptBackup (P : CryptoPrims Key) (salt iv : List Nat)
    (backup : BackupData) (password : String) : EncryptedBackup :=
  let key := P.deriveKey password salt
  let data := P.encodeText (P.jsonStringify backup)
  let encryptedData := P.aesEncrypt key iv data
  { version := BACKUP_VERSION
    algorithm := ALGORITHM
    iv := arrayBufferToBase64 iv
    data := arrayBufferToBase64 (salt ++ encryptedData)
    createdAtISO := toString backup.createdAt }

/-- The catch clause of `decryptBackup`: an error whose message
mentions `decrypt` becomes the generic invalid-password message,
anything else is re-wrapped verbatim. -/
def decryptCatch (msg : String) : String :=
  if strIncludes msg "decrypt" then "Invalid password or corrupted backup file"
  else "Failed to decrypt backup: " ++ msg

/-- `decryptBackup(encryptedBackup, password)`: check the algorithm
field, base64-decode `iv` and `data`, split `data` into the 16-byte
salt and the ciphertext, re-derive the key, AES-GCM-decrypt, parse and
re-hydrate.  Every throw funnels through `decryptCatch`. -/
def decryptBackup (P : CryptoPrims Key) (eb : EncryptedBackup)
    (password : String) : Except String BackupData :=
  if eb.algorithm ≠ ALGORITHM then
    .error (decryptCatch ("Unsupported encryption algorithm: " ++ eb.algorithm))
  else
    match base64ToArrayBuffer eb.iv with
    | none => .error (decryptCatch "The string to be decoded is not correctly encoded.")
    | some iv =>
      match base64ToArrayBuffer eb.data with
      | none => .error (decryptCatch "The string to be decoded is not correctly encoded.")
      | some combined =>
        let salt := combined.take 16
        let encryptedData := combined.drop 16
        let key := P.deriveKey password salt
        match P.aesDecrypt key iv encryptedData with
        | none => .error (decryptCatch P.opErrorMsg)
        | some decryptedData =>
          match P.jsonParse (P.decodeText decryptedData) with
          | none => .error (decryptCatch P.parseErrorMsg)
          | some backup => .ok (P.reviveDates backup)

/-- The parse of an import file's JSON: either an object carrying
truthy `algorithm`, `iv` and `data` fields (the `EncryptedBackup`
shape test of `importBackup`) or a plaintext `BackupData` document. -/
inductive ParsedJson where
  | envelope (e : EncryptedBackup)
  | plain (b : BackupData)

/-- `importBackup` up to the restore step, on the parsed file content
(`none` = `JSON.parse` threw): the whole shape dispatch — including
the `Password required for encrypted backup` throw and any
`decryptBackup` failure — sits inside the `try` whose catch rebrands
every error as `Invalid backup file format`. -/
def importBackup (P : CryptoPrims Key) (parsed : Option ParsedJson)
    (password : Option String) : Except String BackupData :=
  let inner : Except String BackupData :=
    match parsed with
    | none => .error P.parseErrorMsg
    | some (.envelope e) =>
        match password with
        | none => .error "Password required for encrypted backup"
        | some pw => decryptBackup P e pw
    | some (.plain b) => .ok (P.reviveDates b)
  match inner with
  | .error _ => .error "Invalid backup file format"
  | .ok b => .ok b

/-! ## The claims -/

/-- C2: the claim says a failing delivery below `maxRetries` increments
the stored `retryCount` by exactly one, so `k` consecutive failures
leave it at `k`.  The source computes
`retryCount: (await get(id))?.retryCount || 0 + 1`, which by operator
precedence is `stored || 1`: the first failure moves 0 to 1, but a
second failure leaves 1 at 1 (`lastError` is recorded as claimed).
Evaluated here at a fresh entry failed twice. -/
theorem markSyncItemFailed_twice_sticks_at_one :
    (((markSyncItemFailed
        (markSyncItemFailed ⟨[(1, ⟨.create, .expense, 42, 10, 0, none⟩)], 2⟩
          1 "network down")
        1 "network down").get 1).map
      (fun e => (e.retryCount, e.lastError))) =
      some (1, some "network down") := by
  decide

/-- C3: the claim says an entry that has failed `maxRetries` (3) times
is removed from the queue, reported exactly once, and never attempted
again.  Because `markSyncItemFailed` can never move `retryCount` past 1
(the C2 precedence bug), the guard `item.retryCount < maxRetries` stays
true forever: after three failing drain passes the entry is still
queued with `retryCount = 1`, no pass reported any error, and a fourth
pass attempts it again. -/
theorem failed_entry_never_abandoned :
    (((iteratePasses (fun _ => .error "offline")
          ⟨[(1, ⟨.create, .expense, 42, 10, 0, none⟩)], 2⟩ 3).get 1).map
        (fun e => e.retryCount) = some 1) ∧
    ((processQueuePass (fun _ => .error "offline")
        ⟨[(1, ⟨.create, .expense, 42, 10, 0, none⟩)], 2⟩).errors = []) ∧
    ((processQueuePass (fun _ => .error "offline")
        (iteratePasses (fun _ => .error "offline")
          ⟨[(1, ⟨.create, .expense, 42, 10, 0, none⟩)], 2⟩ 1)).errors = []) ∧
    ((processQueuePass (fun _ => .error "offline")
        (iteratePasses (fun _ => .error "offline")
          ⟨[(1, ⟨.create, .expense, 42, 10, 0, none⟩)], 2⟩ 2)).errors = []) ∧
    ((processQueuePass (fun _ => .error "offline")
        (iteratePasses (fun _ => .error "offline")
          ⟨[(1, ⟨.create, .expense, 42, 10, 0, none⟩)], 2⟩ 3)).attempted = [1]) := by
  decide

/-- C6: an import file whose JSON parses to an envelope (truthy
`algorithm`, `iv`, `data`) with no password supplied is rejected before
any decryption — the result does not depend on any field of `P` beyond
the fixed strings — but the `Password required for encrypted backup`
error is swallowed by the surrounding `catch (parseError)` and
re-thrown as `Invalid backup file format`. -/
theorem importBackup_no_password_rebranded {Key : Type} (P : CryptoPrims Key)
    (e : EncryptedBackup) :
    importBackup P (some (.envelope e)) none =
      .error "Invalid backup file format" := rfl

/-- C1: decrypting the envelope produced by `encryptBackup` with the
same password returns the original backup.  The Web Crypto / JSON
primitives are assumed to invert on this input (AES-GCM decryption
under the same key and IV, text round trip, JSON parse plus `Date`
re-hydration); the salt‖ciphertext layout, the 16-byte salt split, the
key re-derivation and the base64 codec are concrete. -/
theorem decryptBackup_encryptBackup_roundtrip {Key : Type}
    (P : CryptoPrims Key) (b : BackupData) (pw : String) (salt iv : List Nat)
    (hslen : salt.length = 16) (hsalt : IsBytes salt) (hiv : IsBytes iv)
    (hct : IsBytes (P.aesEncrypt (P.deriveKey pw salt) iv
      (P.encodeText (P.jsonStringify b))))
    (hdec : P.aesDecrypt (P.deriveKey pw salt) iv
      (P.aesEncrypt (P.deriveKey pw salt) iv (P.encodeText (P.jsonStringify b)))
      = some (P.encodeText (P.jsonStringify b)))
    (htext : P.decodeText (P.encodeText (P.jsonStringify b)) = P.jsonStringify b)
    (hjson : (P.jsonParse (P.jsonStringify b)).map P.reviveDates = some b) :
    decryptBackup P (encryptBackup P salt iv b pw) pw = .ok b := by
  obtain ⟨a, hpa, hrev⟩ := Option.map_eq_some'.mp hjson
  have hcomb : IsBytes (salt ++ P.aesEncrypt (P.deriveKey pw salt) iv
      (P.encodeText (P.jsonStringify b))) := by
    intro x hx
    rcases List.mem_append.mp hx with h | h
    · exact hsalt x h
    · exact hct x h
  simp only [encryptBackup, decryptBackup]
  rw [if_neg (fun h => h rfl)]
  rw [base64_roundtrip hiv, base64_roundtrip hcomb]
  simp only [List.take_left' hslen, List.drop_left' hslen]
  rw [hdec]
  simp only [htext, hpa, hrev]

/-- The backup value the closed witnesses use. -/
def witnessBackup : BackupData :=
  { version := "1.0"
    createdAt := 1700000000
    appVersion := "1.0.0"
    data := { expenses := [], categories := [], settings := []
              preferences := "", appState := "" }
    metadata := { totalExpenses := 0, totalCategories := 0
                  dateRangeStart := none, dateRangeEnd := none
                  fileCount := 0, mediaSize := 0 } }

/-- A concrete instance of the platform primitives for closed
evaluation: a key is the single fact "the password was the right one",
encryption is the identity, decryption refuses a wrong key (AES-GCM
authentication), and the JSON codec maps the one backup used by the
witnesses to the empty string and back. -/
def keyedPrims : CryptoPrims Bool :=
  { deriveKey := fun p _ => p == "correct-password-123"
    aesEncrypt := fun _ _ m => m
    aesDecrypt := fun k _ c => if k then some c else none
    encodeText := fun s => s.data.map (fun c => c.toNat % 256)
    decodeText := fun _ => ""
    jsonStringify := fun _ => ""
    jsonParse := fun _ => some witnessBackup
    reviveDates := id
    opErrorMsg := "The operation failed for an operation-specific reason"
    parseErrorMsg := "Unexpected token" }

/-- C1 witness: the round trip evaluated at a concrete backup,
password, salt and IV, with every platform-contract hypothesis
discharged by computation on `keyedPrims`. -/
theorem decryptBackup_encryptBackup_roundtrip_witness :
    decryptBackup keyedPrims
      (encryptBackup keyedPrims (List.replicate 16 0) (List.replicate 12 0)
        witnessBackup "correct-password-123")
      "correct-password-123" = .ok witnessBackup :=
  decryptBackup_encryptBackup_roundtrip keyedPrims witnessBackup
    "correct-password-123" (List.replicate 16 0) (List.replicate 12 0)
    (by decide) (by decide) (by decide) (by decide) (by decide) (by decide)
    (by decide)

/-- C7 (amended): decrypting with a key that fails AES-GCM
authentication (as a wrong password's derived key does) always fails,
always at the decrypt step — key derivation itself cannot fail — but
the surfaced message is the generic `Invalid password or corrupted
backup file` only when the platform rejection message mentions
`decrypt`; otherwise it is `Failed to decrypt backup: ` followed by
that message.  Either way the error does not distinguish derivation
from tag verification. -/
theorem decryptBackup_wrong_password_fails {Key : Type}
    (P : CryptoPrims Key) (b : BackupData) (pw pw' : String)
    (salt iv : List Nat) (hslen : salt.length = 16) (hsalt : IsBytes salt)
    (hiv : IsBytes iv)
    (hct : IsBytes (P.aesEncrypt (P.deriveKey pw salt) iv
      (P.encodeText (P.jsonStringify b))))
    (hfail : P.aesDecrypt (P.deriveKey pw' salt) iv
      (P.aesEncrypt (P.deriveKey pw salt) iv (P.encodeText (P.jsonStringify b)))
      = none) :
    decryptBackup P (encryptBackup P salt iv b pw) pw' =
      .error (decryptCatch P.opErrorMsg) ∧
    (decryptCatch P.opErrorMsg = "Invalid password or corrupted backup file" ∨
     decryptCatch P.opErrorMsg = "Failed to decrypt backup: " ++ P.opErrorMsg) := by
  have hcomb : IsBytes (salt ++ P.aesEncrypt (P.deriveKey pw salt) iv
      (P.encodeText (P.jsonStringify b))) := by
    intro x hx
    rcases List.mem_append.mp hx with h | h
    · exact hsalt x h
    · exact hct x h
  constructor
  · simp only [encryptBackup, decryptBackup]
    rw [if_neg (fun h => h rfl)]
    rw [base64_roundtrip hiv, base64_roundtrip hcomb]
    simp only [List.take_left' hslen, List.drop_left' hslen]
    rw [hfail]
  · unfold decryptCatch
    split
    · exact Or.inl rfl
    · exact Or.inr rfl

/-- C7 witness: the amended behaviour evaluated at a concrete envelope
and wrong password on `keyedPrims`. -/
theorem decryptBackup_wrong_password_fails_witness :
    decryptBackup keyedPrims
      (encryptBackup keyedPrims (List.replicate 16 0) (List.replicate 12 0)
        witnessBackup "correct-password-123") "wrong-password" =
      .error (decryptCatch keyedPrims.opErrorMsg) ∧
    (decryptCatch keyedPrims.opErrorMsg =
        "Invalid password or corrupted backup file" ∨
     decryptCatch keyedPrims.opErrorMsg =
        "Failed to decrypt backup: " ++ keyedPrims.opErrorMsg) :=
  decryptBackup_wrong_password_fails keyedPrims witnessBackup
    "correct-password-123" "wrong-password" (List.replicate 16 0)
    (List.replicate 12 0) (by decide) (by decide) (by decide) (by decide)
    (by decide)

/-- C7 counterexample: browsers reject a failed AES-GCM decryption
with an `OperationError` whose message (here Chromium's) does not
contain `decrypt`, so the `catch` re-wraps it instead of normalising:
the wrong-password error is NOT the single generic
`Invalid password or corrupted backup file` message. -/
theorem decryptBackup_wrong_password_not_normalized :
    decryptBackup keyedPrims
      (encryptBackup keyedPrims (List.replicate 16 0) (List.replicate 12 0)
        witnessBackup "correct-password-123") "wrong-password" =
      .error ("Failed to decrypt backup: " ++
        "The operation failed for an operation-specific reason") ∧
    ("Failed to decrypt backup: " ++
        "The operation failed for an operation-specific reason" ≠
      "Invalid password or corrupted backup file") := by
  decide

/-! ## C5: which mutating store operations enqueue sync entries -/

/-- A mutating `ExpenseDatabase` operation on a synchronizable entity
type. -/
inductive StoreOp where
  | addExpense (x : ExpenseData)
  | updateExpense (id : Nat) (u : ExpenseData → ExpenseData)
      (modSetsSyncStatus : Bool)
  | deleteExpense (id : Nat)
  | addCategory (c : CategoryData)
  | updateCategory (id : Nat) (u : CategoryData → CategoryData)
  | deleteCategory (id : Nat)
  | addMediaFile (m : MediaData)
  | deleteMediaFile (mediaId : String)

/-- The operation targets the expense table. -/
def StoreOp.isExpenseOp : StoreOp → Bool
  | .addExpense _ => true
  | .updateExpense _ _ _ => true
  | .deleteExpense _ => true
  | _ => false

/-- Dispatch one operation to the corresponding database method. -/
def applyOp (now : Nat) (db : DB) : StoreOp → Except String DB
  | .addExpense x => .ok (addExpense now db x).1
  | .updateExpense id u m => .ok (updateExpense now db id u m)
  | .deleteExpense id => .ok (deleteExpense now db id)
  | .addCategory c => .ok (addCategory now db c).1
  | .updateCategory id u => .ok (updateCategory now db id u)
  | .deleteCategory id => deleteCategory now db id
  | .addMediaFile m => .ok (addMediaFile now db m).1
  | .deleteMediaFile mid => .ok (deleteMediaFile db mid)

/-- Run a sequence of operations, stopping at the first throw. -/
def applyOps (now : Nat) : DB → List StoreOp → Except String DB
  | db, [] => .ok db
  | db, op :: rest =>
      match applyOp now db op with
      | .error e => .error e
      | .ok db1 => applyOps now db1 rest

/-- The store with empty tables (Dexie `++id` keys start at 1). -/
def emptyDB : DB :=
  ⟨⟨[], 1⟩, ⟨[], 1⟩, ⟨[], 1⟩, ⟨[], 1⟩, ⟨[], 1⟩⟩

/-- A sample expense payload. -/
def sampleExpense : ExpenseData :=
  ⟨1250, "lunch", "Food & Dining", "card", 100, none, 0, 0, .pending, none⟩

/-- A sample non-default category payload. -/
def sampleCategory : CategoryData :=
  ⟨"Custom", "#000000", "X", none, false, 0, 0⟩

lemma applyOp_syncQueue_rows (now : Nat) (db : DB) (op : StoreOp) (db' : DB)
    (h : applyOp now db op = .ok db') :
    ∃ new : List (Nat × SyncEntryData),
      db'.syncQueue.rows = db.syncQueue.rows ++ new ∧
      new.length = (if op.isExpenseOp then 1 else 0) ∧
      ∀ r ∈ new, r.2.retryCount = 0 ∧ r.2.lastError = none := by
  cases op with
  | addExpense x =>
      obtain rfl := Except.ok.inj h
      exact ⟨[(db.syncQueue.nextId,
        ⟨.create, .expense, db.expenses.nextId, now, 0, none⟩)],
        rfl, rfl, by simp⟩
  | updateExpense id u m =>
      obtain rfl := Except.ok.inj h
      exact ⟨[(db.syncQueue.nextId, ⟨.update, .expense, id, now, 0, none⟩)],
        rfl, rfl, by simp⟩
  | deleteExpense id =>
      obtain rfl := Except.ok.inj h
      refine ⟨[(db.syncQueue.nextId, ⟨.del, .expense, id, now, 0, none⟩)],
        ?_, rfl, by simp⟩
      simp only [deleteExpense]
      cases hget : db.expenses.get id with
      | none => rfl
      | some e =>
          cases hrec : e.receipt with
          | none => simp [hrec, addToSyncQueue, Table.addAuto]
          | some r =>
              by_cases ht : jsTruthy r.mediaId = true
              · simp [hrec, ht, deleteMediaFile, addToSyncQueue, Table.addAuto]
              · simp [hrec, ht, addToSyncQueue, Table.addAuto]
  | addCategory c =>
      obtain rfl := Except.ok.inj h
      exact ⟨[], by simp [addCategory, Table.addAuto], rfl, by simp⟩
  | updateCategory id u =>
      obtain rfl := Except.ok.inj h
      exact ⟨[], by simp [updateCategory], rfl, by simp⟩
  | deleteCategory id =>
      simp only [applyOp, deleteCategory] at h
      split at h
      · exact absurd h (by simp)
      · split at h
        · obtain rfl := Except.ok.inj h
          exact ⟨[], by simp, rfl, by simp⟩
        · obtain rfl := Except.ok.inj h
          exact ⟨[], by simp, rfl, by simp⟩
  | addMediaFile m =>
      obtain rfl := Except.ok.inj h
      exact ⟨[], by simp [addMediaFile, Table.addAuto], rfl, by simp⟩
  | deleteMediaFile mid =>
      obtain rfl := Except.ok.inj h
      exact ⟨[], by simp [deleteMediaFile], rfl, by simp⟩

/-- C5 (amended): expense mutations (`addExpense`, `updateExpense`,
`deleteExpense`) each enqueue exactly one sync entry with
`retryCount = 0`; the category and media mutations of
`ExpenseDatabase` enqueue none.  After a successful sequence of
operations the queue has grown by exactly the number of expense
operations, and every queue entry is either pre-existing or fresh with
`retryCount = 0` and no `lastError`. -/
theorem mutations_enqueue_only_expense_ops (now : Nat) (ops : List StoreOp)
    (db db' : DB) (h : applyOps now db ops = .ok db') :
    db'.syncQueue.rows.length =
      db.syncQueue.rows.length + (ops.filter StoreOp.isExpenseOp).length ∧
    ∀ r ∈ db'.syncQueue.rows, r ∈ db.syncQueue.rows ∨
      (r.2.retryCount = 0 ∧ r.2.lastError = none) := by
  induction ops generalizing db with
  | nil =>
      simp only [applyOps] at h
      obtain rfl := Except.ok.inj h
      exact ⟨by simp, fun r hr => Or.inl hr⟩
  | cons op rest ih =>
      simp only [applyOps] at h
      cases hop : applyOp now db op with
      | error e => rw [hop] at h; exact absurd h (by simp)
      | ok db1 =>
          rw [hop] at h
          obtain ⟨new, hrows, hlen, hprops⟩ :=
            applyOp_syncQueue_rows now db op db1 hop
          obtain ⟨ihlen, ihmem⟩ := ih db1 h
          constructor
          · rw [ihlen, hrows, List.length_append, hlen, List.filter_cons]
            cases hk : op.isExpenseOp <;> (simp; try omega)
          · intro r hr
            rcases ihmem r hr with hin | hnew
            · rw [hrows] at hin
              rcases List.mem_append.mp hin with h1 | h2
              · exact Or.inl h1
              · exact Or.inr (hprops r h2)
            · exact Or.inr hnew

/-- C5 witness: a concrete three-operation sequence (two expense
mutations, one category mutation) evaluated from the empty store. -/
theorem mutations_enqueue_only_expense_ops_witness :
    ((applyOps 7 emptyDB [.addExpense sampleExpense,
        .addCategory sampleCategory,
        .deleteExpense 1]).toOption.getD emptyDB).syncQueue.rows.length =
      emptyDB.syncQueue.rows.length +
        (([.addExpense sampleExpense, .addCategory sampleCategory,
          .deleteExpense 1] : List StoreOp).filter
            StoreOp.isExpenseOp).length ∧
    ∀ r ∈ ((applyOps 7 emptyDB [.addExpense sampleExpense,
        .addCategory sampleCategory,
        .deleteExpense 1]).toOption.getD emptyDB).syncQueue.rows,
      r ∈ emptyDB.syncQueue.rows ∨
        (r.2.retryCount = 0 ∧ r.2.lastError = none) :=
  mutations_enqueue_only_expense_ops 7
    [.addExpense sampleExpense, .addCategory sampleCategory, .deleteExpense 1]
    emptyDB _ (by decide)

/-- C5 counterexample: a single `addCategory` — a mutating store
operation on a synchronizable entity type — leaves the sync queue
empty, not with the one entry the claim requires. -/
theorem single_addCategory_enqueues_nothing :
    (applyOps 7 emptyDB [StoreOp.addCategory sampleCategory]).map
        (fun d => d.syncQueue.rows.length) = .ok 0 ∧
    (applyOps 7 emptyDB [StoreOp.addCategory sampleCategory]).map
        (fun d => d.syncQueue.rows.length) ≠ .ok 1 := by
  decide

/-- C9: deleting a default category throws
`Cannot delete default category` (before any mutation, so every table
is untouched — the operation returns no store); deleting a stored
non-default category while a category named `Other` exists reassigns
exactly the expenses carrying the deleted category's name to `Other`
(with the updating hook's bookkeeping), removes the category row, and
touches nothing else. -/
theorem deleteCategory_default_guard_and_reassign (now : Nat) (db : DB)
    (id : Nat) :
    ((db.categories.get id).map (fun c => c.isDefault) = some true →
      deleteCategory now db id = .error "Cannot delete default category") ∧
    (∀ c, db.categories.get id = some c → c.isDefault = false →
      (∃ r ∈ db.categories.rows, r.2.name = "Other") →
      ∃ db', deleteCategory now db id = .ok db' ∧
        db'.expenses.rows = db.expenses.rows.map (fun p =>
          if p.2.category = c.name then
            (p.1, { p.2 with category := "Other", updatedAt := now
                             syncStatus := .pending })
          else p) ∧
        db'.categories.rows =
          db.categories.rows.filter (fun p => p.1 ≠ id) ∧
        db'.mediaFiles = db.mediaFiles ∧
        db'.syncQueue = db.syncQueue ∧
        db'.settings = db.settings) := by
  constructor
  · intro h
    simp only [deleteCategory]
    rw [if_pos]
    rw [h]
    rfl
  · intro c hc hdef hother
    have hfind : (db.categories.rows.find?
        (fun r => r.2.name = "Other")).isSome := by
      rw [List.find?_isSome]
      obtain ⟨r, hr, hname⟩ := hother
      exact ⟨r, hr, by simp [hname]⟩
    simp only [deleteCategory, hc]
    rw [if_neg (by simp [hdef])]
    cases hf : db.categories.rows.find? (fun r => r.2.name = "Other") with
    | none => rw [hf] at hfind; exact absurd hfind (by simp)
    | some w =>
        refine ⟨_, rfl, ?_, rfl, rfl, rfl, rfl⟩
        simp only [Table.modifyWhere, Option.map_some', Option.getD_some]
        refine List.map_congr_left (fun p _ => ?_)
        by_cases hp : p.2.category = c.name
        · rw [if_pos (by simpa using hp), if_pos hp]
          rfl
        · rw [if_neg (by simpa using hp), if_neg hp]

/-! ## C10: `deleteExpense` and associated media -/

/-- C10 (amended): for a stored expense whose receipt is present with a
non-empty `mediaId` (JS truthiness: `expense?.receipt?.mediaId`),
`deleteExpense` removes the expense row and every media row whose
`mediaId` matches the receipt's, and appends exactly one
`delete`/`expense` sync entry (none for the media); categories and
settings are untouched. -/
theorem deleteExpense_with_receipt (now : Nat) (db : DB) (id : Nat)
    (e : ExpenseData) (r : Receipt)
    (he : db.expenses.get id = some e) (hr : e.receipt = some r)
    (hm : r.mediaId ≠ "") :
    (deleteExpense now db id).expenses.rows =
        db.expenses.rows.filter (fun p => p.1 ≠ id) ∧
    (deleteExpense now db id).mediaFiles.rows =
        db.mediaFiles.rows.filter (fun p => ¬ p.2.mediaId = r.mediaId) ∧
    (deleteExpense now db id).syncQueue.rows =
        db.syncQueue.rows ++ [(db.syncQueue.nextId,
          ⟨.del, .expense, id, now, 0, none⟩)] ∧
    (deleteExpense now db id).categories = db.categories ∧
    (deleteExpense now db id).settings = db.settings := by
  have ht : jsTruthy r.mediaId = true := by simp [jsTruthy, hm]
  simp only [deleteExpense, he, hr, ht, if_true, deleteMediaFile,
    addToSyncQueue, Table.addAuto, Table.deleteKey, Table.deleteWhere]
  refine ⟨trivial, ?_, trivial, trivial, trivial⟩
  simp

/-- The store the C10 witness acts on: one expense with a receipt
pointing at media `m1`, and that media row. -/
def receiptDB : DB :=
  { emptyDB with
    expenses :=
      ⟨[(1, { sampleExpense with
                receipt := some ⟨"m1", "r.jpg", "image/jpeg", 5⟩ })], 2⟩
    mediaFiles := ⟨[(1, ⟨"m1", "r.jpg", "image/jpeg", 5, none, 0, none⟩)], 2⟩ }

/-- C10 witness: the amended behaviour evaluated on `receiptDB`. -/
theorem deleteExpense_with_receipt_witness :
    (deleteExpense 9 receiptDB 1).expenses.rows =
        receiptDB.expenses.rows.filter (fun p => p.1 ≠ 1) ∧
    (deleteExpense 9 receiptDB 1).mediaFiles.rows =
        receiptDB.mediaFiles.rows.filter (fun p => ¬ p.2.mediaId = "m1") ∧
    (deleteExpense 9 receiptDB 1).syncQueue.rows =
        receiptDB.syncQueue.rows ++ [(receiptDB.syncQueue.nextId,
          ⟨.del, .expense, 1, 9, 0, none⟩)] ∧
    (deleteExpense 9 receiptDB 1).categories = receiptDB.categories ∧
    (deleteExpense 9 receiptDB 1).settings = receiptDB.settings :=
  deleteExpense_with_receipt 9 receiptDB 1
    { sampleExpense with receipt := some ⟨"m1", "r.jpg", "image/jpeg", 5⟩ }
    ⟨"m1", "r.jpg", "image/jpeg", 5⟩ (by decide) (by decide) (by decide)

/-- The C10 counterexample store: the expense's receipt is present but
its `mediaId` is the empty string, and a media row carries that empty
`mediaId`. -/
def emptyMediaIdDB : DB :=
  { emptyDB with
    expenses :=
      ⟨[(1, { sampleExpense with
                receipt := some ⟨"", "r.jpg", "image/jpeg", 5⟩ })], 2⟩
    mediaFiles := ⟨[(1, ⟨"", "r.jpg", "image/jpeg", 5, none, 0, none⟩)], 2⟩ }

/-- C10 counterexample: with the receipt present but `mediaId = ""`,
the JS truthiness check `expense?.receipt?.mediaId` skips media
deletion — the matching media row survives `deleteExpense`, though the
claim requires every matching media row to be deleted. -/
theorem deleteExpense_empty_mediaId_keeps_media :
    ((emptyMediaIdDB.expenses.get 1).map (fun e => e.receipt.isSome) =
      some true) ∧
    ((deleteExpense 9 emptyMediaIdDB 1).mediaFiles.rows.filter
        (fun p => p.2.mediaId = "")).length = 1 := by
  decide

/-! ## C4: the snapshot/restore round trip -/

instance (t : Table α) : Decidable t.WF :=
  inferInstanceAs (Decidable (t.keys.Nodup ∧ ∀ id ∈ t.keys, id < t.nextId))

lemma Table.bulkAddAuto_rows (t : Table α) (xs : List α) :
    (t.bulkAddAuto xs).rows = t.rows ++ (List.range' t.nextId xs.length).zip xs
    ∧ (t.bulkAddAuto xs).nextId = t.nextId + xs.length := by
  induction xs generalizing t with
  | nil => simp [Table.bulkAddAuto]
  | cons x xs ih =>
      obtain ⟨ih1, ih2⟩ := ih ⟨t.rows ++ [(t.nextId, x)], t.nextId + 1⟩
      constructor
      · rw [show (t.bulkAddAuto (x :: xs)).rows =
          (Table.bulkAddAuto ⟨t.rows ++ [(t.nextId, x)], t.nextId + 1⟩ xs).rows
          from rfl, ih1]
        simp [List.range'_succ, List.append_assoc]
      · rw [show (t.bulkAddAuto (x :: xs)).nextId =
          (Table.bulkAddAuto ⟨t.rows ++ [(t.nextId, x)], t.nextId + 1⟩ xs).nextId
          from rfl, ih2]
        simp
        omega

lemma Table.bulkAddWithIdsAux_fresh (t : Table α) (n : Nat)
    (xs : List (Nat × α)) (hfresh : ∀ p ∈ xs, p.1 ∉ t.keys)
    (hnd : (xs.map Prod.fst).Nodup) :
    ∃ m, Table.bulkAddWithIdsAux t n xs = (⟨t.rows ++ xs, m⟩, n) := by
  induction xs generalizing t with
  | nil => exact ⟨t.nextId, by simp [Table.bulkAddWithIdsAux]⟩
  | cons x xs ih =>
      have hx : x.1 ∉ t.keys := hfresh x (by simp)
      have hstep : t.addWithId x.1 x.2 =
          .ok ⟨t.rows ++ [x], max t.nextId (x.1 + 1)⟩ := by
        simp [Table.addWithId, hx]
      have hkeys : (⟨t.rows ++ [x], max t.nextId (x.1 + 1)⟩ : Table α).keys =
          t.keys ++ [x.1] := by
        simp [Table.keys]
      have hfresh1 : ∀ p ∈ xs,
          p.1 ∉ (⟨t.rows ++ [x], max t.nextId (x.1 + 1)⟩ : Table α).keys := by
        intro p hp
        rw [hkeys]
        intro hmem
        rcases List.mem_append.mp hmem with h1 | h2
        · exact hfresh p (by simp [hp]) h1
        · have hpx : p.1 = x.1 := by simpa using h2
          have : x.1 ∈ xs.map Prod.fst := hpx ▸ List.mem_map_of_mem _ hp
          exact (List.nodup_cons.mp hnd).1 this
      obtain ⟨m, hm⟩ := ih ⟨t.rows ++ [x], max t.nextId (x.1 + 1)⟩ hfresh1
        (List.nodup_cons.mp hnd).2
      refine ⟨m, ?_⟩
      rw [Table.bulkAddWithIdsAux, hstep]
      rw [show (match (Except.ok ⟨t.rows ++ [x], max t.nextId (x.1 + 1)⟩ :
            Except String (Table α)) with
          | .ok t1 => Table.bulkAddWithIdsAux t1 n xs
          | .error _ => Table.bulkAddWithIdsAux t (n + 1) xs) =
          Table.bulkAddWithIdsAux
            ⟨t.rows ++ [x], max t.nextId (x.1 + 1)⟩ n xs from rfl]
      rw [hm]
      simp

lemma Table.bulkAddWithIdsAux_dup (t : Table α) (n : Nat)
    (xs : List (Nat × α)) (hdup : ∀ p ∈ xs, p.1 ∈ t.keys) :
    Table.bulkAddWithIdsAux t n xs = (t, n + xs.length) := by
  induction xs generalizing n with
  | nil => simp [Table.bulkAddWithIdsAux]
  | cons x xs ih =>
      have hx : x.1 ∈ t.keys := hdup x (by simp)
      have hstep : t.addWithId x.1 x.2 =
          (.error "ConstraintError" : Except String (Table α)) := by
        simp [Table.addWithId, hx]
      rw [Table.bulkAddWithIdsAux, hstep]
      rw [show (match (Except.error "ConstraintError" :
            Except String (Table α)) with
          | .ok t1 => Table.bulkAddWithIdsAux t1 n xs
          | .error _ => Table.bulkAddWithIdsAux t (n + 1) xs) =
          Table.bulkAddWithIdsAux t (n + 1) xs from rfl]
      rw [ih (n + 1) (fun p hp => hdup p (by simp [hp])), List.length_cons]
      refine congrArg _ ?_
      omega

lemma Table.bulkAddWithIds_fresh (t : Table α) (xs : List (Nat × α))
    (hfresh : ∀ p ∈ xs, p.1 ∉ t.keys) (hnd : (xs.map Prod.fst).Nodup) :
    ∃ m, t.bulkAddWithIds xs = (⟨t.rows ++ xs, m⟩, 0) :=
  Table.bulkAddWithIdsAux_fresh t 0 xs hfresh hnd

lemma Table.bulkAddWithIds_dup (t : Table α) (xs : List (Nat × α))
    (hdup : ∀ p ∈ xs, p.1 ∈ t.keys) :
    t.bulkAddWithIds xs = (t, xs.length) := by
  rw [Table.bulkAddWithIds, Table.bulkAddWithIdsAux_dup t 0 xs hdup]
  simp

/-- C4 (amended): `restoreBackup` of the snapshot just taken does NOT
complete.  `clearAllData` clears expenses, categories, media files and
the sync queue but not settings, and re-seeds the seven default
categories inside the clear — before the bulk-inserts, not only when
the store ends up empty.  The snapshot's expenses and categories then
bulk-insert cleanly (bookkeeping regenerated by the creating hooks; the
defaults carry fresh keys above every snapshot key, so a primary-key
read returns the snapshot's categories before them).  The snapshot's
settings, whose keys are all still stored, every one collide, the
settings `bulkAdd` rejects with a `BulkError`, and `restoreBackup`
rethrows `Failed to restore backup: ...`, leaving the store partially
restored: expenses element-wise restored modulo bookkeeping,
categories holding the snapshot's rows plus the seven defaults,
settings unchanged, media and sync queue empty.  (`hS` is the normal
state: `initializeDefaultData` seeds five settings at store open.) -/
theorem createBackup_restoreBackup (now now' : Nat) (db : DB)
    (prefs app : String) (hwfE : db.expenses.WF) (hwfC : db.categories.WF)
    (hS : db.settings.rows ≠ []) :
    (restoreBackup now' (createBackup now db prefs app) db).2 =
      some ("Failed to restore backup: " ++ dexieBulkErrorMsg) ∧
    (restoreBackup now' (createBackup now db prefs app) db).1.expenses.rows =
      db.expenses.rows.map (fun p => (p.1, expenseCreatingHook now' p.2)) ∧
    ((restoreBackup now' (createBackup now db prefs app)
        db).1.categories.rows).Perm
      (db.categories.rows.map (fun p => (p.1, categoryCreatingHook now' p.2))
        ++ (List.range' db.categories.nextId 7).zip (defaultCategories now')) ∧
    (restoreBackup now' (createBackup now db prefs app) db).1.settings.rows =
      db.settings.rows ∧
    (restoreBackup now' (createBackup now db prefs app) db).1.mediaFiles.rows
      = [] ∧
    (restoreBackup now' (createBackup now db prefs app) db).1.syncQueue.rows
      = [] := by
  have hlenS : ¬ db.settings.rows.length = 0 := by
    simpa [List.length_eq_zero] using hS
  have hclear : clearAllData now' db =
      { expenses := db.expenses.clear
        categories := db.categories.clear.bulkAddAuto (defaultCategories now')
        mediaFiles := db.mediaFiles.clear
        syncQueue := db.syncQueue.clear
        settings := db.settings } := by
    simp [clearAllData, initializeDefaultData, Table.count, Table.clear, hlenS]
  have hcatdef : (db.categories.clear.bulkAddAuto (defaultCategories now')).rows
      = (List.range' db.categories.nextId 7).zip (defaultCategories now') := by
    rw [(Table.bulkAddAuto_rows (db.categories.clear) (defaultCategories now')).1]
    simp [Table.clear, defaultCategories]
  have hcatkeys : (db.categories.clear.bulkAddAuto (defaultCategories now')).keys
      = List.range' db.categories.nextId 7 := by
    rw [Table.keys, hcatdef]
    exact List.map_fst_zip _ _ (by simp [defaultCategories])
  have hndE : ((db.expenses.rows.map
      (fun p => (p.1, expenseCreatingHook now' p.2))).map Prod.fst).Nodup := by
    have heq : (db.expenses.rows.map
        (fun p => (p.1, expenseCreatingHook now' p.2))).map Prod.fst =
        db.expenses.rows.map Prod.fst := by
      simp [List.map_map, Function.comp]
    rw [heq]
    exact hwfE.1
  have hndC : ((db.categories.rows.map
      (fun p => (p.1, categoryCreatingHook now' p.2))).map Prod.fst).Nodup := by
    have heq : (db.categories.rows.map
        (fun p => (p.1, categoryCreatingHook now' p.2))).map Prod.fst =
        db.categories.rows.map Prod.fst := by
      simp [List.map_map, Function.comp]
    rw [heq]
    exact hwfC.1
  -- the expenses bulk-insert onto the cleared table: all rows land, none fail
  have hEpair : ∃ m,
      (if db.expenses.rows.length > 0 then
        (db.expenses.clear).bulkAddWithIds
          (db.expenses.rows.map (fun r => (r.1, expenseCreatingHook now' r.2)))
      else (db.expenses.clear, 0)) =
      ((⟨db.expenses.rows.map (fun r => (r.1, expenseCreatingHook now' r.2)),
          m⟩ : Table ExpenseData), 0) := by
    by_cases hEe : db.expenses.rows = []
    · refine ⟨db.expenses.nextId, ?_⟩
      rw [if_neg (by simp [hEe])]
      simp [hEe, Table.clear]
    · obtain ⟨m, hm⟩ := Table.bulkAddWithIds_fresh (db.expenses.clear)
        (db.expenses.rows.map (fun r => (r.1, expenseCreatingHook now' r.2)))
        (by intro p hp; simp [Table.clear, Table.keys]) hndE
      refine ⟨m, ?_⟩
      rw [if_pos (by simp [List.length_pos, hEe]), hm]
      simp [Table.clear]
  -- the categories bulk-insert onto the re-seeded defaults: all land
  have hCpair : ∃ m,
      (if db.categories.rows.length > 0 then
        (db.categories.clear.bulkAddAuto (defaultCategories now')).bulkAddWithIds
          (db.categories.rows.map
            (fun r => (r.1, categoryCreatingHook now' r.2)))
      else (db.categories.clear.bulkAddAuto (defaultCategories now'), 0)) =
      ((⟨(List.range' db.categories.nextId 7).zip (defaultCategories now') ++
          db.categories.rows.map
            (fun r => (r.1, categoryCreatingHook now' r.2)), m⟩ :
        Table CategoryData), 0) := by
    by_cases hCe : db.categories.rows = []
    · refine ⟨(db.categories.clear.bulkAddAuto (defaultCategories now')).nextId,
        ?_⟩
      rw [if_neg (by simp [hCe])]
      rw [Prod.mk.injEq]
      refine ⟨?_, rfl⟩
      rw [show (db.categories.clear.bulkAddAuto (defaultCategories now')) =
        ⟨(db.categories.clear.bulkAddAuto (defaultCategories now')).rows,
          (db.categories.clear.bulkAddAuto (defaultCategories now')).nextId⟩
        from rfl, hcatdef]
      simp [hCe]
    · have hfreshC : ∀ p ∈ db.categories.rows.map
          (fun r => (r.1, categoryCreatingHook now' r.2)),
          p.1 ∉ (db.categories.clear.bulkAddAuto (defaultCategories now')).keys := by
        intro p hp
        rw [hcatkeys]
        obtain ⟨q, hq, rfl⟩ := List.mem_map.mp hp
        have hlt : q.1 < db.categories.nextId :=
          hwfC.2 q.1 (List.mem_map_of_mem _ hq)
        intro hmem
        obtain ⟨i, -, hi⟩ := List.mem_range'.mp hmem
        simp only [] at hi
        omega
      obtain ⟨m, hm⟩ := Table.bulkAddWithIds_fresh
        (db.categories.clear.bulkAddAuto (defaultCategories now'))
        (db.categories.rows.map (fun r => (r.1, categoryCreatingHook now' r.2)))
        hfreshC hndC
      refine ⟨m, ?_⟩
      rw [if_pos (by simp [List.length_pos, hCe]), hm, hcatdef]
  -- the settings bulk-insert: every key is still stored, every row fails
  have hSpair :
      (if db.settings.rows.length > 0 then
        db.settings.bulkAddWithIds db.settings.rows
      else (db.settings, 0)) = (db.settings, db.settings.rows.length) := by
    rw [if_pos (by omega)]
    exact Table.bulkAddWithIds_dup _ _ (fun p hp => List.mem_map_of_mem _ hp)
  obtain ⟨mE, hE⟩ := hEpair
  obtain ⟨mC, hC⟩ := hCpair
  simp only [restoreBackup, hclear, createBackup]
  rw [hE]
  dsimp only
  rw [if_neg (by simp)]
  rw [hC]
  dsimp only
  rw [if_neg (by simp)]
  rw [hSpair]
  dsimp only
  rw [if_pos hlenS]
  exact ⟨rfl, rfl, List.perm_append_comm, rfl, rfl, rfl⟩

/-- The store the C4 counterexample and witness act on: one expense,
one non-default category, one setting. -/
def roundtripDB : DB :=
  { emptyDB with
    expenses := ⟨[(1, sampleExpense)], 2⟩
    categories := ⟨[(1, sampleCategory)], 2⟩
    settings := ⟨[(1, ⟨"currency", "USD", 0⟩)], 2⟩ }

/-- C4 counterexample: snapshotting `roundtripDB` and immediately
restoring the snapshot does not yield an element-wise equal store: the
snapshot's settings collide with their own still-stored keys, restore
rejects with the rethrown `Failed to restore backup` error, and the
store left behind holds eight categories (the seven re-seeded defaults
plus the snapshot's one) in place of the original one. -/
theorem restore_roundtrip_rejects :
    (restoreBackup 50 (createBackup 40 roundtripDB "" "") roundtripDB).2 =
      some ("Failed to restore backup: " ++ dexieBulkErrorMsg) ∧
    (restoreBackup 50 (createBackup 40 roundtripDB "" "")
        roundtripDB).1.categories.rows.length = 8 ∧
    roundtripDB.categories.rows.length = 1 := by
  decide

/-- C4 witness: the amended round-trip behaviour evaluated on
`roundtripDB`. -/
theorem createBackup_restoreBackup_witness :
    (restoreBackup 50 (createBackup 40 roundtripDB "" "") roundtripDB).2 =
      some ("Failed to restore backup: " ++ dexieBulkErrorMsg) ∧
    (restoreBackup 50 (createBackup 40 roundtripDB "" "")
        roundtripDB).1.expenses.rows =
      roundtripDB.expenses.rows.map
        (fun p => (p.1, expenseCreatingHook 50 p.2)) ∧
    ((restoreBackup 50 (createBackup 40 roundtripDB "" "")
        roundtripDB).1.categories.rows).Perm
      (roundtripDB.categories.rows.map
          (fun p => (p.1, categoryCreatingHook 50 p.2)) ++
        (List.range' roundtripDB.categories.nextId 7).zip
          (defaultCategories 50)) ∧
    (restoreBackup 50 (createBackup 40 roundtripDB "" "")
        roundtripDB).1.settings.rows = roundtripDB.settings.rows ∧
    (restoreBackup 50 (createBackup 40 roundtripDB "" "")
        roundtripDB).1.mediaFiles.rows = [] ∧
    (restoreBackup 50 (createBackup 40 roundtripDB "" "")
        roundtripDB).1.syncQueue.rows = [] :=
  createBackup_restoreBackup 40 50 roundtripDB "" "" (by decide) (by decide)
    (by decide)

/-! ## C8: auto-backup retention -/

lemma map_fst_filter_fst {V : Type} (p : String → Bool)
    (l : List (String × V)) :
    (l.filter (fun e => p e.1)).map Prod.fst = (l.map Prod.fst).filter p := by
  induction l with
  | nil => rfl
  | cons x xs ih => by_cases hp : p x.1 = true <;> simp [hp, ih]

lemma KVStore.keys_del {V : Type} (kv : KVStore V) (k : String) :
    (kv.del k).keys = kv.keys.filter (fun x => x ≠ k) :=
  map_fst_filter_fst (fun x => decide (x ≠ k)) kv.entries

lemma KVStore.keys_foldl_del {V : Type} (ks : List String) (kv : KVStore V) :
    (ks.foldl KVStore.del kv).keys =
      kv.keys.filter (fun x => decide (x ∉ ks)) := by
  induction ks generalizing kv with
  | nil => simp
  | cons a ks ih =>
      rw [List.foldl_cons, ih, KVStore.keys_del, List.filter_filter]
      congr 1
      funext x
      by_cases h1 : x = a <;> by_cases h2 : x ∈ ks <;> simp [h1, h2]

lemma KVStore.keys_set_fresh {V : Type} (kv : KVStore V) (k : String) (v : V)
    (h : k ∉ kv.keys) : (kv.set k v).keys = kv.keys ++ [k] := by
  have h' : ¬ k ∈ kv.entries.map Prod.fst := h
  simp [KVStore.set, KVStore.keys, h']

lemma storeLocalBackup_evict {V : Type} (kv : KVStore V) (bk : String) (v : V)
    (h5 : 5 ≤ (kv.keys.filter isBackupKey).length) :
    storeLocalBackup kv bk v =
      KVStore.set
        (List.foldl KVStore.del kv
          (List.take
            ((List.insertionSort keyOrder
              (List.filter isBackupKey kv.keys)).length - 4)
            (List.insertionSort keyOrder (List.filter isBackupKey kv.keys))))
        bk v := by
  simp only [storeLocalBackup]
  rw [if_pos h5]

lemma storeLocalBackup_noevict {V : Type} (kv : KVStore V) (bk : String)
    (v : V) (h5 : ¬ 5 ≤ (kv.keys.filter isBackupKey).length) :
    storeLocalBackup kv bk v = kv.set bk v := by
  simp only [storeLocalBackup]
  rw [if_neg h5]

/-- C8: after `storeLocalBackup` at most 5 `auto-backup-` keys remain,
and when 5 or more were already stored, exactly the oldest ones in
key-sort order are gone: an existing backup key survives iff it is
among the newest 4 (the `drop (n - 4)` part of the sorted key list),
and the new key is added.  Hypotheses: the store maps each key once,
and the new key carries the `auto-backup-` prefix and is not yet
present (it is keyed by the current date). -/
theorem storeLocalBackup_retention {V : Type} (kv : KVStore V)
    (backupKey : String) (v : V) (hnd : kv.keys.Nodup)
    (hk : isBackupKey backupKey = true) (hfresh : backupKey ∉ kv.keys) :
    ((storeLocalBackup kv backupKey v).keys.filter isBackupKey).length ≤ 5 ∧
    (5 ≤ (kv.keys.filter isBackupKey).length →
      ∀ k ∈ kv.keys.filter isBackupKey,
        (k ∈ (storeLocalBackup kv backupKey v).keys ↔
          k ∈ ((kv.keys.filter isBackupKey).insertionSort keyOrder).drop
            (((kv.keys.filter isBackupKey).insertionSort keyOrder).length
              - 4))) := by
  have hndK : (kv.keys.filter isBackupKey).Nodup := hnd.filter _
  have hperm := List.perm_insertionSort keyOrder (kv.keys.filter isBackupKey)
  have hndS : ((kv.keys.filter isBackupKey).insertionSort keyOrder).Nodup :=
    hperm.nodup_iff.mpr hndK
  by_cases h5 : 5 ≤ (kv.keys.filter isBackupKey).length
  · -- eviction happens
    rw [storeLocalBackup_evict kv backupKey v h5]
    set sorted :=
      List.insertionSort keyOrder (List.filter isBackupKey kv.keys)
      with hsorted
    set evicted := List.take (sorted.length - 4) sorted with hevict
    have hlenS : sorted.length = (kv.keys.filter isBackupKey).length :=
      hperm.length_eq
    have hkeys1 : (List.foldl KVStore.del kv evicted).keys =
        kv.keys.filter (fun x => decide (x ∉ evicted)) :=
      KVStore.keys_foldl_del evicted kv
    have hfresh1 : backupKey ∉ (List.foldl KVStore.del kv evicted).keys := by
      rw [hkeys1]
      intro hmem
      exact hfresh (List.mem_of_mem_filter hmem)
    have hsplit : evicted ++ sorted.drop (sorted.length - 4) = sorted :=
      List.take_append_drop _ _
    have hdisj : ∀ x ∈ sorted.drop (sorted.length - 4), x ∉ evicted := by
      intro x hx
      have hnd2 : (evicted ++ sorted.drop (sorted.length - 4)).Nodup := by
        rw [hsplit]
        exact hndS
      exact fun hx2 => (List.disjoint_of_nodup_append hnd2) hx2 hx
    have hfiltS : sorted.filter (fun x => decide (x ∉ evicted)) =
        sorted.drop (sorted.length - 4) := by
      conv_lhs => rw [← hsplit]
      rw [List.filter_append]
      have h1 : evicted.filter (fun x => decide (x ∉ evicted)) = [] := by
        rw [List.filter_eq_nil_iff]
        intro a ha
        simp [ha]
      have h2 : (sorted.drop (sorted.length - 4)).filter
          (fun x => decide (x ∉ evicted)) =
          sorted.drop (sorted.length - 4) := by
        rw [List.filter_eq_self]
        intro a ha
        simpa using hdisj a ha
      rw [h1, h2, List.nil_append]
    have hcomm : (kv.keys.filter (fun x => decide (x ∉ evicted))).filter
        isBackupKey =
        (kv.keys.filter isBackupKey).filter
          (fun x => decide (x ∉ evicted)) :=
      List.filter_comm _ _ _
    have hsurvlen : ((kv.keys.filter isBackupKey).filter
        (fun x => decide (x ∉ evicted))).length = 4 := by
      rw [((hperm.filter (fun x => decide (x ∉ evicted))).symm).length_eq,
        hfiltS, List.length_drop]
      omega
    constructor
    · rw [KVStore.keys_set_fresh _ _ _ hfresh1, hkeys1, List.filter_append,
        List.length_append, hcomm, hsurvlen]
      simp [hk]
    · intro _ k hkK
      have hkkeys : k ∈ kv.keys := List.mem_of_mem_filter hkK
      have hkne : k ≠ backupKey := fun he => hfresh (he ▸ hkkeys)
      have hksorted : k ∈ sorted := hperm.mem_iff.mpr hkK
      rw [KVStore.keys_set_fresh _ _ _ hfresh1, hkeys1, List.mem_append]
      constructor
      · rintro (hin | hin)
        · have hnotev : k ∉ evicted := by
            have := List.of_mem_filter hin
            simpa using this
          rcases List.mem_append.mp (hsplit ▸ hksorted) with h1 | h2
          · exact absurd h1 hnotev
          · exact h2
        · exact absurd (by simpa using hin) hkne
      · intro hin
        left
        rw [List.mem_filter]
        exact ⟨hkkeys, by simpa using hdisj k hin⟩
  · -- fewer than 5 backup keys: plain insert
    rw [storeLocalBackup_noevict kv backupKey v h5]
    constructor
    · rw [KVStore.keys_set_fresh _ _ _ hfresh, List.filter_append,
        List.length_append]
      have h1 : ([backupKey].filter isBackupKey).length = 1 := by simp [hk]
      omega
    · intro h5'
      exact absurd h5' h5

/-- The side store the C8 witness acts on: five stored auto-backups
plus an unrelated preference key. -/
def fullKV : KVStore Nat :=
  ⟨[("auto-backup-2024-01-01", 1), ("auto-backup-2024-01-02", 2),
    ("prefs", 0), ("auto-backup-2024-01-03", 3),
    ("auto-backup-2024-01-04", 4), ("auto-backup-2024-01-05", 5)]⟩

/-- C8 witness: storing a sixth auto-backup into `fullKV` — the
retention bound and the eviction characterisation evaluated
concretely. -/
theorem storeLocalBackup_retention_witness :
    ((storeLocalBackup fullKV "auto-backup-2024-01-06" 6).keys.filter
        isBackupKey).length ≤ 5 ∧
    (5 ≤ (fullKV.keys.filter isBackupKey).length →
      ∀ k ∈ fullKV.keys.filter isBackupKey,
        (k ∈ (storeLocalBackup fullKV "auto-backup-2024-01-06" 6).keys ↔
          k ∈ ((fullKV.keys.filter isBackupKey).insertionSort keyOrder).drop
            (((fullKV.keys.filter isBackupKey).insertionSort
              keyOrder).length - 4))) :=
  storeLocalBackup_retention fullKV "auto-backup-2024-01-06" 6
    (by decide) (by decide) (by decide)

end Pew
